import Mathlib

/-
Verification development for the stage-3 reading-plan agent
(`stage3(AI Agent)/main.py` and `stage3(AI Agent)/agents/bibly_agent.py`).

The Python code is shallowly embedded: dictionaries coming from the
upstream JSON API are modelled by the inductive `PyVal`; Python runtime
errors that the code catches are modelled with `Except Unit`; the
process-wide stores `user_contexts` (in `main.py`) and `BiblyAgent.plans`
are modelled as association lists threaded through the functions that the
source mutates in place.  Identifier generation (`uuid4`) and the network
fetch are nondeterministic inputs and are passed in as parameters
(`freshId`, `fetched`).
-/

namespace Bibly

/-! ### Python value model -/

/-- A JSON-ish Python value as it appears in the Bible SuperSearch API
responses handled by `bibly_agent.py`: strings, dicts (association lists
preserving insertion order), lists, and `None`. -/
inductive PyVal where
  | vstr (s : String)
  | vdict (entries : List (String × PyVal))
  | vlist (xs : List PyVal)
  | vnone

/-- Python whitespace as used by `str.strip` and the regex class `\s`
(ASCII range): space, tab, newline, carriage return, vertical tab,
form feed. -/
def isPySpace (c : Char) : Bool :=
  c = ' ' || c = '\t' || c = '\n' || c = '\r' || c = Char.ofNat 11 || c = Char.ofNat 12

/-- `str.strip()` on a character list: trailing whitespace is removed
first, then leading whitespace (the order is irrelevant to the result). -/
def pyStripList (cs : List Char) : List Char :=
  ((cs.reverse.dropWhile isPySpace).reverse).dropWhile isPySpace

/-- `str.strip()`. -/
def pyStripS (s : String) : String :=
  String.mk (pyStripList s.data)

/-- Python substring test `needle in hay` for strings. -/
def pySubstr (needle : List Char) : List Char → Bool
  | [] => needle.isPrefixOf []
  | c :: t => needle.isPrefixOf (c :: t) || pySubstr needle t

/-- First-match lookup in a Python dict modelled as an association list
(Python dicts have unique keys, so first match is the match). -/
def dlookup (es : List (String × PyVal)) (k : String) : Option PyVal :=
  match es with
  | [] => none
  | (k', v) :: t => if k' = k then some v else dlookup t k

/-- Python truthiness of the values that occur in this code base:
empty string / empty dict / empty list / `None` are falsy. -/
def pyTruthy : PyVal → Bool
  | .vstr s => !s.isEmpty
  | .vdict es => !es.isEmpty
  | .vlist xs => !xs.isEmpty
  | .vnone => false

/-- `str(v)` for values reached by the f-strings in `bibly_agent.py`.
Strings and `None` render exactly as Python does; for a dict or list the
exact Python repr text is not reproduced (no property proved here depends
on it), only that it is some fixed string. -/
def pyToString : PyVal → String
  | .vstr s => s
  | .vnone => "None"
  | .vdict es => "dict(" ++ toString es.length ++ ")"
  | .vlist xs => "list(" ++ toString xs.length ++ ")"

/-- Python `str.title()`: uppercase every letter that follows a
non-letter, lowercase every letter that follows a letter. -/
def pyTitleList : List Char → Bool → List Char
  | [], _ => []
  | c :: t, prevAlpha =>
    (if c.isAlpha then (if prevAlpha then c.toLower else c.toUpper) else c)
      :: pyTitleList t c.isAlpha

/-- `topic.title()`. -/
def pyTitle (s : String) : String :=
  String.mk (pyTitleList s.data false)

/-! ### `BiblyAgent._extract_verse_text` (bibly_agent.py lines 41-63)

The body of the `try` block is modelled by `tryExtract` over `Except
Unit` (any Python exception the block can raise - `StopIteration` from
`next(iter(...))` on an empty collection, `TypeError` from indexing a
non-dict, `KeyError`, `AttributeError` from `.get` on a non-dict - is
`.error ()`, which the source catches and turns into the fallback
string). -/

/-- `next(iter(v))`: first dict key, first character of a string, first
element of a list; raises on an empty collection or `None`. -/
def pyIterFirst : PyVal → Except Unit PyVal
  | .vdict ((k, _) :: _) => .ok (.vstr k)
  | .vdict [] => .error ()
  | .vstr s =>
    match s.data with
    | c :: _ => .ok (.vstr (String.mk [c]))
    | [] => .error ()
  | .vlist (x :: _) => .ok x
  | .vlist [] => .error ()
  | .vnone => .error ()

/-- `container[key]` where `key` is a value: only a dict indexed by one
of its string keys succeeds; indexing a string or a list with a string,
or a dict with a missing or non-string key, raises. -/
def pyIndexVal : PyVal → PyVal → Except Unit PyVal
  | .vdict es, .vstr k =>
    match dlookup es k with
    | some v => .ok v
    | none => .error ()
  | _, _ => .error ()

/-- Python `key in container`: key membership for a dict, substring test
for a string, element membership for a list; raises on `None`. -/
def pyContains : PyVal → String → Except Unit Bool
  | .vdict es, k => .ok (es.any fun e => e.1 = k)
  | .vstr s, k => .ok (pySubstr k.data s.data)
  | .vlist xs, k =>
    .ok (xs.any fun v =>
      match v with
      | .vstr s => s = k
      | _ => false)
  | .vnone, _ => .error ()

/-- `container.get(key, default)`: only dicts have `.get`; anything else
raises `AttributeError`. -/
def pyGetd : PyVal → String → PyVal → Except Unit PyVal
  | .vdict es, k, d => .ok ((dlookup es k).getD d)
  | _, _, _ => .error ()

/-- The `try` block of `_extract_verse_text`:
`verses_data = verse.get("verses", {})`; unwrap a `"kjv"` layer when
present; if the result is a dict, take its first key, then the first key
of the row below it, and read `"text"` (default `""`) from that cell;
if it is not a dict the source assigns the fallback string directly. -/
def tryExtract (verse : PyVal) : Except Unit PyVal := do
  let versesData ← pyGetd verse "verses" (.vdict [])
  let hasKjv ← pyContains versesData "kjv"
  let kjv ← if hasKjv then pyIndexVal versesData (.vstr "kjv") else pure versesData
  match kjv with
  | .vdict _ => do
    let chapter ← pyIterFirst kjv
    let row ← pyIndexVal kjv chapter
    let vnum ← pyIterFirst row
    let cell ← pyIndexVal row vnum
    pyGetd cell "text" (.vstr "")
  | _ => pure (.vstr "Verse text not found.")

/-- The final sanitisation of `_extract_verse_text`:
`str(text).strip().replace("\n", " ").replace("\r", " ")`. -/
def sanitizeList (cs : List Char) : List Char :=
  ((pyStripList cs).map fun c => if c = '\n' then ' ' else c).map
    fun c => if c = '\r' then ' ' else c

/-- `BiblyAgent._extract_verse_text(verse)`: run the `try` block, map any
exception to the fallback string, sanitise. -/
def extract_verse_text (verse : PyVal) : String :=
  let t : String :=
    match tryExtract verse with
    | .ok v => pyToString v
    | .error _ => "Verse text not found."
  String.mk (sanitizeList t.data)

/-- `BiblyAgent._format_verse_reference(verse)`:
`f"{book} {chapter_verse}".strip()` with `.get(..., "")` defaults.  The
source has no `try` here; every caller passes a dict (the fetch filter
and the fallback verse guarantee it), and on a non-dict the model
returns `""` where Python would raise out of the handler. -/
def format_verse_reference (v : PyVal) : String :=
  match v with
  | .vdict es =>
    pyStripS (pyToString ((dlookup es "book_name").getD (.vstr ""))
      ++ " " ++ pyToString ((dlookup es "chapter_verse").getD (.vstr "")))
  | _ => ""

/-! ### The three regexes of `handle_a2a_request` (main.py lines 138, 185, 190)

Each `re.search(pattern, text, re.I)` is modelled by a leftmost search
over character positions; at each position the pattern is matched with
Python's backtracking semantics.  The character classes involved are
disjoint wherever the patterns are deterministic, and the two genuinely
backtracking points (`.*` before the keyword group, and `\s+` before the
final `(.+)` capture) are implemented greedy-longest-first exactly as
Python resolves them. -/

/-- Case-insensitive literal match (the patterns are compiled with
`re.I`); returns the rest of the input. -/
def matchLitCI : List Char → List Char → Option (List Char)
  | [], cs => some cs
  | _ :: _, [] => none
  | p :: ps, c :: cs => if c.toLower = p then matchLitCI ps cs else none

/-- Digit run to a number: `int(match.group(1))`. -/
def digitsToNat (ds : List Char) : Nat :=
  ds.foldl (fun n c => n * 10 + (c.toNat - '0'.toNat)) 0

/-- `(\d+)`: greedy, at least one digit. -/
def takeDigits (cs : List Char) : Option (Nat × List Char) :=
  let ds := cs.takeWhile Char.isDigit
  if ds.isEmpty then none
  else some (digitsToNat ds, cs.dropWhile Char.isDigit)

/-- `\s*`. -/
def skipSpaces (cs : List Char) : List Char :=
  cs.dropWhile isPySpace

/-- `\s+` (greedy; what follows it in the `next` pattern is `\d+`, a
disjoint class, so no backtracking arises). -/
def skipSpaces1 (cs : List Char) : Option (List Char) :=
  match cs with
  | c :: t => if isPySpace c then some (skipSpaces t) else none
  | [] => none

/-- `[-]?`. -/
def optDash (cs : List Char) : List Char :=
  match cs with
  | '-' :: t => t
  | _ => cs

/-- Python `\w`: letters, digits, underscore. -/
def isWordChar (c : Char) : Bool :=
  c.isAlphanum || c = '_'

/-- `\s+(.+)` with backtracking, returning the capture: the longest
whitespace run after which at least one non-newline character remains;
the capture is greedy up to the end of the line (`.` does not match
newline). -/
def matchSpacesCapture : List Char → Option (List Char)
  | [] => none
  | c :: rest =>
    if isPySpace c then
      (matchSpacesCapture rest) <|>
        (let cap := rest.takeWhile fun x => x ≠ '\n'
         if cap.isEmpty then none else some cap)
    else none

/-- `(?:on|about|for)\s+(.+)` at the current position (the `\b` that
follows the keyword group in the create pattern is subsumed by `\s+`:
whitespace is a non-word character).  The three keywords start with
distinct letters, so alternation order is immaterial. -/
def kwSpacesCapture (cs : List Char) : Option (List Char) :=
  (matchLitCI ['a', 'b', 'o', 'u', 't'] cs >>= matchSpacesCapture) <|>
    (matchLitCI ['o', 'n'] cs >>= matchSpacesCapture) <|>
    (matchLitCI ['f', 'o', 'r'] cs >>= matchSpacesCapture)

/-- `(?:s)?\b` after the literal `day`: if an `s` follows it must be
consumed (a boundary between `y` and `s` is impossible), and a word
boundary is required after the consumed part. -/
def matchOptSBoundary (cs : List Char) : Option (List Char) :=
  match cs with
  | [] => some []
  | c :: rest =>
    if c.toLower = 's' then
      match rest with
      | [] => some []
      | c' :: _ => if isWordChar c' then none else some rest
    else if isWordChar c then none else some cs

/-- `.*\b(?:on|about|for)\b\s+(.+)`: the greedy `.*` consumes
non-newline characters longest-first, tracking whether the previous
character is a word character so that the `\b` before the keyword can be
checked.  Called with `prevW = true` because the character before the
`.*` is the `y`/`s` of `day(?:s)?`. -/
def dotStarKw : Bool → List Char → Option (List Char)
  | _, [] => none
  | prevW, c :: t =>
    (if c = '\n' then none else dotStarKw (isWordChar c) t) <|>
      (if prevW then none else kwSpacesCapture (c :: t))

/-- The continuation pattern `next\s+(\d+)\s*[-]?\s*day(?:s)?` (main.py
line 138) matched at the current position; the trailing optional `s` has
no boundary and never affects acceptance. -/
def matchNextAt (cs : List Char) : Option Nat := do
  let cs ← matchLitCI ['n', 'e', 'x', 't'] cs
  let cs ← skipSpaces1 cs
  let (n, cs) ← takeDigits cs
  let cs := skipSpaces (optDash (skipSpaces cs))
  let _ ← matchLitCI ['d', 'a', 'y'] cs
  pure n

/-- `re.search` of the continuation pattern: leftmost position wins. -/
def searchNextList : List Char → Option Nat
  | [] => none
  | c :: t => matchNextAt (c :: t) <|> searchNextList t

/-- The create pattern `(\d+)\s*[-]?\s*day(?:s)?\b.*\b(?:on|about|for)\b\s+(.+)`
(main.py line 185) matched at the current position; returns the number
and the raw topic capture. -/
def matchCreateAt (cs : List Char) : Option (Nat × List Char) := do
  let (n, cs) ← takeDigits cs
  let cs := skipSpaces (optDash (skipSpaces cs))
  let cs ← matchLitCI ['d', 'a', 'y'] cs
  let cs ← matchOptSBoundary cs
  let cap ← dotStarKw true cs
  pure (n, cap)

/-- `re.search` of the create pattern. -/
def searchCreateList : List Char → Option (Nat × List Char)
  | [] => none
  | c :: t => matchCreateAt (c :: t) <|> searchCreateList t

/-- `re.search` of the bare topic pattern `(?:about|on|for)\s+(.+)`
(main.py line 190; no word boundaries). -/
def searchTopicList : List Char → Option (List Char)
  | [] => none
  | c :: t => kwSpacesCapture (c :: t) <|> searchTopicList t

/-! ### Intent parsing for the create path (main.py lines 185-196) -/

/-- `BiblyAgent(max_days=10)` (main.py line 30). -/
def maxDays : Nat := 10

/-- The create-path parse (main.py lines 185-196): the full pattern
gives `days = min(N, max_days)` and the stripped topic capture; else the
bare keyword pattern gives the stripped capture with 5 days; else the
whole text is the topic (`"faith"` when the text is empty, Python
falsiness) with 5 days. -/
def parseCreateCmd (text : String) : String × Nat :=
  match searchCreateList text.data with
  | some (n, cap) => (pyStripS (String.mk cap), min n maxDays)
  | none =>
    match searchTopicList text.data with
    | some cap => (pyStripS (String.mk cap), 5)
    | none => ((if text = "" then "faith" else text), 5)

/-! ### Plan store and response building (bibly_agent.py) -/

/-- One stored plan (`self.plans[context_id]`, bibly_agent.py lines
100-105): topic, fetched verses, `last_index` (a Python int: `-1` means
nothing delivered yet), `total_days` delivered so far. -/
structure Plan where
  topic : String
  verses : List PyVal
  lastIndex : Int
  totalDays : Nat

/-- Association-list read of the plan store (`self.plans.get(context_id)`). -/
def alookup : List (String × Plan) → String → Option Plan
  | [], _ => none
  | (k', v) :: t, k => if k' = k then some v else alookup t k

/-- Python dict assignment `self.plans[context_id] = ...`: replace an
existing binding in place, or append a new one. -/
def ainsert : List (String × Plan) → String → Plan → List (String × Plan)
  | [], k, v => [(k, v)]
  | (k', v') :: t, k, v =>
    if k' = k then (k, v) :: t else (k', v') :: ainsert t k v

/-- The slice of a task result that the properties below observe:
context id, status state, the status message text, and the artifacts as
(name, part text) pairs. -/
structure TaskResultM where
  contextId : String
  state : String
  messageText : String
  artifacts : List (String × String)

/-- `"\n\n".join(message_lines)` and friends. -/
def joinSep (sep : String) : List String → String
  | [] => ""
  | [x] => x
  | x :: y :: t => x ++ sep ++ joinSep sep (y :: t)

/-- The `f"📖 Day {n}: "` prefix shared by real and placeholder day
lines. -/
def dayHeader (n : Nat) : String :=
  "📖 Day " ++ toString n ++ ": "

/-- A real day line of the create path:
`f"📖 Day {i+1}: {ref}\n   {text}"`. -/
def dayLineCreate (n : Nat) (v : PyVal) : String :=
  dayHeader n ++ (format_verse_reference v ++ "\n   " ++ extract_verse_text v)

/-- The placeholder line the create path emits past the end of the
verses: `f"📖 Day {i+1}: No more verses available"`. -/
def placeholderLine (n : Nat) : String :=
  dayHeader n ++ "No more verses available"

/-- The `message_lines` loop of `create_plan` (bibly_agent.py lines
111-129): exactly `numDays` lines, a real line while `start_index + i`
is in range and the placeholder afterwards. -/
def createLines (verses : List PyVal) (startIndex : Nat) (numDays : Nat) : List String :=
  (List.range numDays).map fun i =>
    match verses[startIndex + i]? with
    | some v => dayLineCreate (i + 1) v
    | none => placeholderLine (i + 1)

/-- The artifacts of the same loop: one `day_{i+1}` artifact per real
(non-placeholder) line, with part text `f"{ref}: {text}"`. -/
def createArtifacts (verses : List PyVal) (startIndex : Nat) (numDays : Nat) :
    List (String × String) :=
  (List.range numDays).filterMap fun i =>
    (verses[startIndex + i]?).map fun v =>
      ("day_" ++ toString (i + 1),
        format_verse_reference v ++ (": " ++ extract_verse_text v))

/-- The plan title, body and continuation hint of the create path
(bibly_agent.py lines 131-135). -/
def createText (topic : String) (numDays : Nat) (lines : List String) : String :=
  "🕊️ Your " ++ toString numDays ++ "-Day " ++ pyTitle topic ++ " Reading Plan\n\n"
    ++ joinSep "\n\n" lines
    ++ "\n\n💡 To continue, just say 'next " ++ toString maxDays ++ " days'"

/-- The fallback verse used when the fetch yields nothing
(bibly_agent.py lines 85-95). -/
def fallbackVerse : PyVal :=
  .vdict
    [("book_name", .vstr "1 Corinthians"),
     ("chapter_verse", .vstr "13:4-7"),
     ("verses", .vdict
       [("13", .vdict
         [("4", .vdict
           [("text", .vstr "Love is patient, love is kind. It does not envy, it does not boast, it is not proud.")])])])]

/-- The per-item filter of `fetch_verses` (bibly_agent.py lines 22-28):
keep only dicts with truthy `book_name` and `chapter_verse`. -/
def clean_filter (results : List PyVal) : List PyVal :=
  results.filter fun v =>
    match v with
    | .vdict es =>
      pyTruthy ((dlookup es "book_name").getD .vnone)
        && pyTruthy ((dlookup es "chapter_verse").getD .vnone)
    | _ => false

/-- `fetch_verses(topic)` (bibly_agent.py lines 11-34): the network
outcome is a parameter; any exception raised while fetching or decoding
(`.error`) is caught and becomes the empty list, a successful response
is filtered. -/
def fetch_verses (outcome : Except Unit (List PyVal)) : List PyVal :=
  match outcome with
  | .error _ => []
  | .ok results => clean_filter results

/-- The Plan Store write of `create_plan` (bibly_agent.py lines 97-105):
`context_id = context_id or str(uuid4())` (an absent or empty id is
falsy and is replaced by the fresh one), then
`self.plans[context_id] = {topic, verses, last_index: start_index +
num_days - 1, total_days: num_days}`. -/
def planStoreCreate (plans : List (String × Plan)) (contextIdOpt : Option String)
    (freshId : String) (topic : String) (verses : List PyVal)
    (startIndex : Nat) (numDays : Nat) : String × List (String × Plan) :=
  let cid :=
    match contextIdOpt with
    | some c => if c = "" then freshId else c
    | none => freshId
  (cid,
    ainsert plans cid
      { topic := topic, verses := verses,
        lastIndex := (startIndex : Int) + (numDays : Int) - 1,
        totalDays := numDays })

/-- `BiblyAgent.create_plan` (bibly_agent.py lines 71-156) with the
fetch outcome already reduced to the verse list `fetched`: clamp the day
count, fall back to the built-in verse when nothing was fetched, store
the plan, and build the completed task result.  Returns (task result,
context id, new plan store). -/
def create_plan (plans : List (String × Plan)) (topic : String) (numDaysReq : Nat)
    (contextIdOpt : Option String) (freshId : String) (fetched : List PyVal) :
    TaskResultM × String × List (String × Plan) :=
  let numDays := min numDaysReq maxDays
  let verses := if fetched.isEmpty then [fallbackVerse] else fetched
  let (cid, plans') := planStoreCreate plans contextIdOpt freshId topic verses 0 numDays
  let lines := createLines verses 0 numDays
  ({ contextId := cid, state := "completed",
     messageText := createText topic numDays lines,
     artifacts := createArtifacts verses 0 numDays },
   cid, plans')

/-! ### Continuation (`BiblyAgent.get_next_chunk`, bibly_agent.py lines 158-242) -/

/-- One entry of the continuation window. -/
structure DayItem where
  dayNum : Nat
  ref : String
  text : String

/-- The window loop of `get_next_chunk` (lines 201-217): for up to the
requested number of days, include the verse at `idx` with day number
`total_days + i + 1` (here `dayBase` carries `total_days + i`), breaking
at the end of the verses.  The source guard is `idx < len(verses)`; the
store invariant `last_index >= -1` (established by `create_plan` and
preserved here) makes `0 <= idx` automatic, and the model checks it so
that the list index is total. -/
def chunkItems (verses : List PyVal) : Nat → Int → Nat → List DayItem
  | _, _, 0 => []
  | dayBase, idx, fuel + 1 =>
    if h : 0 ≤ idx ∧ idx < (verses.length : Int) then
      { dayNum := dayBase + 1,
        ref := format_verse_reference (verses.get ⟨idx.toNat, by omega⟩),
        text := extract_verse_text (verses.get ⟨idx.toNat, by omega⟩) }
        :: chunkItems verses (dayBase + 1) (idx + 1) fuel
    else []

/-- A continuation day line: `f"📖 Day {day_num}: {ref}\n   {text}"`. -/
def chunkLine (it : DayItem) : String :=
  dayHeader it.dayNum ++ (it.ref ++ "\n   " ++ it.text)

/-- The exhaustion message (bibly_agent.py line 182). -/
def exhaustedText (topic : String) : String :=
  "🕊️ You've completed all available verses for " ++ pyTitle topic
    ++ "!\n\n✨ Start a new plan with a different topic."

/-- The continuation header, body and hint (bibly_agent.py lines
223-227). -/
def nextText (topic : String) (lines : List String) : String :=
  "🕊️ Next " ++ toString lines.length ++ " Days for " ++ pyTitle topic ++ "\n\n"
    ++ joinSep "\n\n" lines
    ++ "\n\n💡 Say 'next " ++ toString maxDays ++ " days' to continue"

/-- `BiblyAgent.get_next_chunk(context_id, num_days)`: `(None, None)`
and an untouched store when no plan exists; the exhaustion result and an
untouched store when `start >= len(verses)`; otherwise the next window,
with the plan's `last_index` and `total_days` advanced by the number of
lines actually built. -/
def get_next_chunk (plans : List (String × Plan)) (contextId : String)
    (numDaysReq : Nat) : Option TaskResultM × List (String × Plan) :=
  match alookup plans contextId with
  | none => (none, plans)
  | some entry =>
    let numDays := min numDaysReq maxDays
    let start : Int := entry.lastIndex + 1
    if (entry.verses.length : Int) ≤ start then
      (some { contextId := contextId, state := "completed",
              messageText := exhaustedText entry.topic, artifacts := [] },
       plans)
    else
      let items := chunkItems entry.verses entry.totalDays start numDays
      let entry2 : Plan :=
        { entry with lastIndex := start + (items.length : Int) - 1,
                     totalDays := entry.totalDays + items.length }
      (some { contextId := contextId, state := "completed",
              messageText := nextText entry.topic (items.map chunkLine),
              artifacts := items.map fun it =>
                ("day_" ++ toString it.dayNum, it.ref ++ (": " ++ it.text)) },
       ainsert plans contextId entry2)

/-! ### Text extraction from the message parts (main.py lines 116-127) -/

/-- A message part as the extraction loop sees it: its `kind` and
optional `text`. -/
structure PartM where
  kind : String
  text : Option String

/-- The accumulation loop: for each part of the last message, when
`part.kind == "text" and part.text` (truthy: present and non-empty),
append `part.text.strip() + " "`. -/
def collectText : List PartM → String → String
  | [], acc => acc
  | p :: ps, acc =>
    match p.text with
    | some s =>
      if p.kind = "text" && !s.isEmpty then collectText ps (acc ++ (pyStripS s ++ " "))
      else collectText ps acc
    | none => collectText ps acc

/-- The full extraction (main.py lines 116-127): run the loop over the
parts of the last message (messages may be empty), strip the result, and
substitute `"faith"` when the outcome is empty. -/
def extractText (messages : List (List PartM)) : String :=
  let t : String :=
    match messages.getLast? with
    | none => ""
    | some parts => pyStripS (collectText parts "")
  if t = "" then "faith" else t

/-- The stripped texts of all text-bearing parts, in order (the
spec-side view of the same loop). -/
def textPieces (parts : List PartM) : List String :=
  parts.filterMap fun p =>
    match p.text with
    | some s => if p.kind = "text" && !s.isEmpty then some (pyStripS s) else none
    | none => none

/-- Space-separated join (spec-side). -/
def joinSpace : List String → String
  | [] => ""
  | [x] => x
  | x :: y :: t => x ++ " " ++ joinSpace (y :: t)

/-- Restatement of the extraction following the corrected wording of the
spec sentence: the stripped texts of all text parts of the last message,
joined by single spaces, stripped, with `"faith"` substituted when no
text is found.  Compared against `extractText` below. -/
def extractTextSpec (messages : List (List PartM)) : String :=
  let t : String :=
    match messages.getLast? with
    | none => ""
    | some parts => pyStripS (joinSpace (textPieces parts))
  if t = "" then "faith" else t

/-! ### Envelope validation (main.py lines 60-113, models/a2a.py) -/

/-- The shape of `params` after JSON decoding, as pydantic's
`Union[MessageParams, ExecuteParams]` sees it: a well-formed
`message`-style object, a well-formed `messages`-style object, or
something neither accepts. -/
inductive ParamsShape where
  | messageParams
  | executeParams
  | invalid
deriving DecidableEq

/-- The inbound envelope fields the validation path inspects: the
`jsonrpc` value (if the key is present), whether an `id` key is present
and whether its value is a string, the `method` value, and the params
shape. -/
structure Envelope where
  jsonrpc : Option String
  idPresent : Bool
  idIsStr : Bool
  methodVal : Option String
  params : ParamsShape

/-- `JSONRPCRequest(**body)` succeeds (models/a2a.py): `jsonrpc` is
`"2.0"` or absent (the field has that default), `id` is a present
string, `method` is one of the two supported literals, and `params`
matches one of the union members. -/
def pydanticOk (b : Envelope) : Bool :=
  (b.jsonrpc = some "2.0" || b.jsonrpc = none)
    && (b.idPresent && b.idIsStr)
    && (b.methodVal = some "message/send" || b.methodVal = some "execute")
    && !(b.params = ParamsShape.invalid)

/-- The validation gauntlet of `handle_a2a_request` (main.py lines
60-113), reduced to the error code it answers with (`none` = the request
proceeds to routing): the manual `jsonrpc`/`id` check answers `-32600`;
a pydantic `ValidationError` answers `-32600`; then the method dispatch
answers `-32601` for a method that is neither `message/send` nor
`execute`.  Every branch returns a JSON response; nothing is raised to
the caller. -/
def validateEnvelope (b : Envelope) : Option Int :=
  if !(b.jsonrpc = some "2.0") || !b.idPresent then some (-32600)
  else if !(pydanticOk b) then some (-32600)
  else if b.methodVal = some "message/send" then none
  else if b.methodVal = some "execute" then none
  else some (-32601)

/-! ### Routing (main.py lines 137-210) -/

/-- The two module-level stores of `main.py`: the dispatcher's
`user_contexts` key set and the agent's `plans`. -/
structure DState where
  userContexts : List String
  plans : List (String × Plan)

/-- Dispatcher-level key insertion `user_contexts[context_id] = ctx`
(only the key set is observed). -/
def insertCtx (l : List String) (k : String) : List String :=
  if k ∈ l then l else l ++ [k]

/-- What the routing decided: the inline "no plan found" response (main.py
lines 144-181), a continuation result, or a freshly created plan's
result. -/
inductive RouteOut where
  | noPlanFound
  | continued (r : TaskResultM)
  | created (r : TaskResultM)

/-- Observer: the routing answered "no plan found". -/
def isNoPlanFound : RouteOut → Bool
  | .noPlanFound => true
  | _ => false

/-- Observer: the routing created a new plan. -/
def isCreated : RouteOut → Bool
  | .created _ => true
  | _ => false

/-- The routing of `handle_a2a_request` after text extraction (main.py
lines 137-210): when the continuation pattern matches AND the context id
is a `user_contexts` key, advance the existing plan (capping the day
count) and answer "no plan found" if the agent has no plan under that
id; in every other case parse the text as a create request and create a
plan under the (already resolved, hence non-empty) context id.
`freshId` stands for `str(uuid4())` and `fetched` for the awaited fetch
outcome of the create path. -/
def routeRequest (st : DState) (contextId : String) (text : String)
    (freshId : String) (fetched : List PyVal) : RouteOut × DState :=
  let createPath : RouteOut × DState :=
    let tn := parseCreateCmd text
    let rcp := create_plan st.plans tn.1 tn.2 (some contextId) freshId fetched
    (RouteOut.created rcp.1,
      { userContexts := insertCtx st.userContexts rcp.2.1, plans := rcp.2.2 })
  match searchNextList text.data with
  | some n =>
    if contextId ∈ st.userContexts then
      match get_next_chunk st.plans contextId (min n maxDays) with
      | (none, plans') => (RouteOut.noPlanFound, { st with plans := plans' })
      | (some r, plans') => (RouteOut.continued r, { st with plans := plans' })
    else createPath
  | none => createPath

/-! ### Concrete fixtures and proof-side helpers -/

/-- Concatenation of strings each followed by one space: the exact shape
the accumulation loop of `extractText` builds. -/
def concatSp : List String → String
  | [] => ""
  | x :: t => (x ++ " ") ++ concatSp t

/-- A minimal clean verse dict used by concrete instances. -/
def mkVerse (book cv : String) : PyVal :=
  .vdict [("book_name", .vstr book), ("chapter_verse", .vstr cv)]

/-- A three-verse plan that has delivered one day (`last_index = 0`):
two verses remain. -/
def entryMid : Plan :=
  { topic := "t", verses := [mkVerse "A" "1:1", mkVerse "B" "2:2", mkVerse "C" "3:3"],
    lastIndex := 0, totalDays := 1 }

/-- A freshly created two-verse plan that has delivered nothing yet. -/
def entryFresh : Plan :=
  { topic := "t", verses := [mkVerse "A" "1:1", mkVerse "B" "2:2"],
    lastIndex := -1, totalDays := 0 }

/-- A fully delivered three-verse plan (`last_index = 2`). -/
def entryDone : Plan :=
  { topic := "love", verses := [mkVerse "A" "1:1", mkVerse "B" "2:2", mkVerse "C" "3:3"],
    lastIndex := 2, totalDays := 3 }

/-- A pre-existing plan to be overwritten by a store create. -/
def planOld : Plan :=
  { topic := "old", verses := [mkVerse "O" "9:9"], lastIndex := 4, totalDays := 5 }

/-! ### Shared lemmas -/

theorem alookup_ainsert_self (l : List (String × Plan)) (k : String) (v : Plan) :
    alookup (ainsert l k v) k = some v := by
  induction l with
  | nil => simp [ainsert, alookup]
  | cons p t ih =>
    obtain ⟨k', v'⟩ := p
    by_cases h : k' = k
    · subst h; simp [ainsert, alookup]
    · simp [ainsert, alookup, h, ih]

theorem sanitize_no_ctrl {c : Char} {cs : List Char} (h : c ∈ sanitizeList cs) :
    c ≠ '\n' ∧ c ≠ '\r' := by
  rw [sanitizeList, List.mem_map] at h
  obtain ⟨a, haMem, haEq⟩ := h
  rw [List.mem_map] at haMem
  obtain ⟨b, _, hbEq⟩ := haMem
  subst hbEq haEq
  constructor <;> split_ifs <;> first | decide | simp_all

theorem chunkItems_length (verses : List PyVal) :
    ∀ (fuel dayBase : Nat) (idx : Int), 0 ≤ idx →
      (chunkItems verses dayBase idx fuel).length
        = min fuel (((verses.length : Int) - idx).toNat) := by
  intro fuel
  induction fuel with
  | zero => intro dayBase idx _; simp [chunkItems]
  | succ n ih =>
    intro dayBase idx h
    rw [chunkItems]
    split
    · next hlt =>
      simp only [List.length_cons, ih (dayBase + 1) (idx + 1) (by omega)]
      omega
    · next hge =>
      simp only [List.length_nil]
      omega

theorem chunkItems_getElem (verses : List PyVal) :
    ∀ (fuel dayBase : Nat) (idx : Int) (k : Nat), 0 ≤ idx →
      k < (chunkItems verses dayBase idx fuel).length →
      (chunkItems verses dayBase idx fuel)[k]?
        = some { dayNum := dayBase + k + 1,
                 ref := format_verse_reference (verses.getD (idx.toNat + k) (.vdict [])),
                 text := extract_verse_text (verses.getD (idx.toNat + k) (.vdict [])) } := by
  intro fuel
  induction fuel with
  | zero => intro dayBase idx k _ hk; simp [chunkItems] at hk
  | succ n ih =>
    intro dayBase idx k h hk
    rw [chunkItems] at hk ⊢
    by_cases hin : 0 ≤ idx ∧ idx < (verses.length : Int)
    · rw [dif_pos hin] at hk ⊢
      cases k with
      | zero =>
        simp only [List.getElem?_cons_zero, Option.some.injEq, Nat.add_zero]
        have hpf : idx.toNat < verses.length := by omega
        have hget : verses.getD idx.toNat (.vdict []) = verses.get ⟨idx.toNat, hpf⟩ := by
          rw [List.getD_eq_getElem?_getD, List.getElem?_eq_getElem hpf]
          simp [List.get_eq_getElem]
        rw [hget]
      | succ k' =>
        simp only [List.getElem?_cons_succ]
        have hk' : k' < (chunkItems verses (dayBase + 1) (idx + 1) n).length := by
          simp only [List.length_cons] at hk
          omega
        rw [ih (dayBase + 1) (idx + 1) k' (by omega) hk']
        have hidx : (idx + 1).toNat + k' = idx.toNat + (k' + 1) := by omega
        have hday : dayBase + 1 + k' + 1 = dayBase + (k' + 1) + 1 := by omega
        rw [hidx, hday]
    · rw [dif_neg hin] at hk
      simp at hk

/-! ### Claim theorems -/

/-- C10: verse-text extraction is total - modelled over every `PyVal`
(dict inputs included, however malformed), `extract_verse_text` returns
a string whose characters contain no newline and no carriage return,
and whenever the extraction body raises (any structural mismatch, an
empty inner dict, a non-dict where a dict is indexed) the result is the
fixed fallback string `"Verse text not found."`. -/
theorem c10_extract_verse_text_total :
    ∀ verse : PyVal,
      ('\n' ∉ (extract_verse_text verse).data ∧ '\r' ∉ (extract_verse_text verse).data)
      ∧ (tryExtract verse = .error () → extract_verse_text verse = "Verse text not found.") := by
  intro verse
  refine ⟨⟨fun h => (sanitize_no_ctrl h).1 rfl, fun h => (sanitize_no_ctrl h).2 rfl⟩, ?_⟩
  intro herr
  unfold extract_verse_text
  rw [herr]
  decide

/-- C10 witness: a dict whose `"verses"` entry is a string containing
`"kjv"` makes the body index a string and raise; the result is the
fallback. -/
theorem c10_extract_verse_text_total_witness :
    tryExtract (PyVal.vdict [("verses", PyVal.vstr "kjv data")]) = .error ()
    ∧ extract_verse_text (PyVal.vdict [("verses", PyVal.vstr "kjv data")])
        = "Verse text not found." :=
  ⟨rfl, (c10_extract_verse_text_total (PyVal.vdict [("verses", PyVal.vstr "kjv data")])).2 rfl⟩

/-- C3: once `cursor + 1 ≥ len(items)` (here `last_index + 1 >=
len(verses)`), any continuation reports exhaustion - a single completed
message built by `exhaustedText` from the plan's topic, an empty
artifacts list - and the plan store (hence the plan's `last_index` and
`total_days`) is returned unchanged. -/
theorem c3_exhaustion_unmutated :
    ∀ (plans : List (String × Plan)) (ctx : String) (entry : Plan) (numReq : Nat),
      alookup plans ctx = some entry →
      (entry.verses.length : Int) ≤ entry.lastIndex + 1 →
      get_next_chunk plans ctx numReq =
        (some { contextId := ctx, state := "completed",
                messageText := exhaustedText entry.topic, artifacts := [] },
         plans) := by
  intro plans ctx entry numReq hlook hex
  unfold get_next_chunk
  rw [hlook]
  simp only [if_pos hex]

/-- C3 witness: a fully delivered three-verse plan answers the
exhaustion result and leaves the store untouched. -/
theorem c3_exhaustion_unmutated_witness :
    get_next_chunk [("c", entryDone)] "c" 5 =
      (some { contextId := "c", state := "completed",
              messageText := exhaustedText entryDone.topic, artifacts := [] },
       [("c", entryDone)]) :=
  c3_exhaustion_unmutated [("c", entryDone)] "c" entryDone 5 rfl (by decide)

/-- C5: the Plan Store write of `create_plan` (bibly_agent.py lines
97-105): afterwards the stored plan under the resulting identifier is
exactly the new plan with `cursor = startIndex + days - 1` and
`totalDelivered = days` whatever was stored before (full replacement, no
merge), and when no identifier is supplied the generated fresh one is
used.  These lines receive the day count already clamped by the
caller. -/
theorem c5_store_create :
    ∀ (plans : List (String × Plan)) (contextIdOpt : Option String) (freshId topic : String)
      (verses : List PyVal) (startIndex numDays : Nat),
      alookup (planStoreCreate plans contextIdOpt freshId topic verses startIndex numDays).2
          (planStoreCreate plans contextIdOpt freshId topic verses startIndex numDays).1
        = some { topic := topic, verses := verses,
                 lastIndex := (startIndex : Int) + (numDays : Int) - 1,
                 totalDays := numDays }
      ∧ (contextIdOpt = none →
          (planStoreCreate plans contextIdOpt freshId topic verses startIndex numDays).1
            = freshId) := by
  intro plans contextIdOpt freshId topic verses startIndex numDays
  constructor
  · exact alookup_ainsert_self plans _ _
  · intro h
    subst h
    rfl

/-- C5 witness: overwriting an existing plan under `"c"`, and fresh-id
generation when no identifier is supplied. -/
theorem c5_store_create_witness :
    (alookup (planStoreCreate [("c", planOld)] (some "c") "fresh" "t2" [fallbackVerse] 0 2).2
        (planStoreCreate [("c", planOld)] (some "c") "fresh" "t2" [fallbackVerse] 0 2).1).map
        Plan.topic = some "t2"
    ∧ (planStoreCreate [] none "fresh" "faith" [fallbackVerse] 0 5).1 = "fresh" := by
  constructor
  · rw [(c5_store_create [("c", planOld)] (some "c") "fresh" "t2" [fallbackVerse] 0 2).1]
    rfl
  · exact (c5_store_create [] none "fresh" "faith" [fallbackVerse] 0 5).2 rfl

/-- C8: a Content Source transport error is translated into the empty
sequence by `fetch_verses` (never propagated), and so is a response with
no usable results; on an empty verse list `create_plan` falls back to
the built-in default verse and still returns a completed plan, the
stored plan holding exactly the fallback verse. -/
theorem c8_fetch_fallback :
    (∀ e : Unit, fetch_verses (Except.error e) = [])
    ∧ fetch_verses (Except.ok []) = []
    ∧ (∀ (plans : List (String × Plan)) (topic : String) (numReq : Nat)
        (contextIdOpt : Option String) (freshId : String),
        (create_plan plans topic numReq contextIdOpt freshId []).1.state = "completed"
        ∧ (alookup (create_plan plans topic numReq contextIdOpt freshId []).2.2
              (create_plan plans topic numReq contextIdOpt freshId []).2.1).map Plan.verses
            = some [fallbackVerse]) := by
  refine ⟨fun e => rfl, rfl, fun plans topic numReq contextIdOpt freshId => ⟨rfl, ?_⟩⟩
  simp only [create_plan, planStoreCreate, List.isEmpty_nil, if_true]
  rw [alookup_ainsert_self]
  rfl

/-- C2: for `days ≤ MAX_DAYS` the create path builds exactly `days`
day-lines (the `message_lines` of `create_plan`), each carrying the
`Day i+1` header in order, with every slot past the end of the verses
filled by the explicit placeholder line; in contrast the continuation
window stops at the end of the verses - its length is
`min requested available` and every element is built from a real verse,
never a placeholder. -/
theorem c2_create_exact_continuation_truncated :
    ∀ (verses : List PyVal) (days : Nat), days ≤ maxDays →
      ((createLines verses 0 days).length = days
       ∧ (∀ i, i < days →
            ∃ rest, (createLines verses 0 days)[i]? = some (dayHeader (i + 1) ++ rest))
       ∧ (∀ i, i < days → verses.length ≤ i →
            (createLines verses 0 days)[i]? = some (placeholderLine (i + 1)))
       ∧ (∀ (vs : List PyVal) (total : Nat) (start : Int) (num : Nat), 0 ≤ start →
            ((chunkItems vs total start num).length
                = min num (((vs.length : Int) - start).toNat)
             ∧ ∀ k, k < (chunkItems vs total start num).length →
                 (chunkItems vs total start num)[k]?
                   = some { dayNum := total + k + 1,
                            ref := format_verse_reference (vs.getD (start.toNat + k) (.vdict [])),
                            text := extract_verse_text (vs.getD (start.toNat + k) (.vdict [])) }))) := by
  intro verses days _
  refine ⟨by simp [createLines], ?_, ?_, ?_⟩
  · intro i hi
    cases hv : verses[i]? with
    | none =>
      refine ⟨"No more verses available", ?_⟩
      simp [createLines, List.getElem?_range hi, Nat.zero_add, hv, placeholderLine]
    | some v =>
      refine ⟨format_verse_reference v ++ "\n   " ++ extract_verse_text v, ?_⟩
      simp [createLines, List.getElem?_range hi, Nat.zero_add, hv, dayLineCreate]
  · intro i hi hlen
    have hv : verses[i]? = none := by
      rw [List.getElem?_eq_none]
      omega
    simp [createLines, List.getElem?_range hi, Nat.zero_add, hv]
  · intro vs total start num hs
    exact ⟨chunkItems_length vs num total start hs,
      fun k hk => chunkItems_getElem vs num total start k hs hk⟩

/-- C2 witness: three requested days over a single available verse give
three lines, the third being the placeholder. -/
theorem c2_create_exact_continuation_truncated_witness :
    (createLines [fallbackVerse] 0 3).length = 3
    ∧ (createLines [fallbackVerse] 0 3)[2]? = some (placeholderLine 3) := by
  have h := c2_create_exact_continuation_truncated [fallbackVerse] 3 (by decide)
  exact ⟨h.1, h.2.2.1 2 (by decide) (by decide)⟩

/-- C4 counterexample: the claim quantifies over every successful
advance on a plan with items remaining, but a `next 0 days` request is
parseable (`num = min(0, max_days) = 0`), and on `entryMid` (cursor 0,
three verses, so items remain) it succeeds with an empty window: the
stored cursor stays 0, not strictly greater. -/
theorem c4_counterexample :
    ((0 : Int) + 1 < 3)
    ∧ (get_next_chunk [("c", entryMid)] "c" 0).1.isSome = true
    ∧ (alookup (get_next_chunk [("c", entryMid)] "c" 0).2 "c").map Plan.lastIndex = some 0
    ∧ (alookup [("c", entryMid)] "c").map Plan.lastIndex = some 0 := by
  refine ⟨by norm_num, rfl, by decide, rfl⟩

/-- C4 amended: for every advance that requests at least one day on a
well-formed plan (`last_index ≥ -1`) that still has items remaining, the
result is a task result whose window is non-empty, the stored cursor
grows by exactly the window size (hence strictly), `total_days` grows by
exactly the number of artifacts returned, and the k-th artifact is named
`day_{previous total_days + k + 1}`. -/
theorem c4_advance_monotone_amended :
    ∀ (plans : List (String × Plan)) (ctx : String) (entry : Plan) (numReq : Nat),
      alookup plans ctx = some entry →
      0 ≤ entry.lastIndex + 1 →
      entry.lastIndex + 1 < (entry.verses.length : Int) →
      1 ≤ numReq →
      ∃ r : TaskResultM,
        (get_next_chunk plans ctx numReq).1 = some r
        ∧ 1 ≤ r.artifacts.length
        ∧ alookup (get_next_chunk plans ctx numReq).2 ctx
            = some { topic := entry.topic, verses := entry.verses,
                     lastIndex := entry.lastIndex + (r.artifacts.length : Int),
                     totalDays := entry.totalDays + r.artifacts.length }
        ∧ entry.lastIndex < entry.lastIndex + (r.artifacts.length : Int)
        ∧ (∀ k, k < r.artifacts.length →
            (r.artifacts[k]?).map Prod.fst
              = some ("day_" ++ toString (entry.totalDays + k + 1))) := by
  intro plans ctx entry numReq hlook h0 hrem hreq
  have hnotex : ¬ ((entry.verses.length : Int) ≤ entry.lastIndex + 1) := by omega
  have hlen : (chunkItems entry.verses entry.totalDays (entry.lastIndex + 1)
      (min numReq maxDays)).length
      = min (min numReq maxDays) (((entry.verses.length : Int) - (entry.lastIndex + 1)).toNat) :=
    chunkItems_length entry.verses (min numReq maxDays) entry.totalDays (entry.lastIndex + 1) h0
  have hpos : 1 ≤ (chunkItems entry.verses entry.totalDays (entry.lastIndex + 1)
      (min numReq maxDays)).length := by
    rw [hlen]
    simp only [maxDays]
    omega
  have hstep : get_next_chunk plans ctx numReq =
      (some { contextId := ctx, state := "completed",
              messageText := nextText entry.topic
                ((chunkItems entry.verses entry.totalDays (entry.lastIndex + 1)
                  (min numReq maxDays)).map chunkLine),
              artifacts := (chunkItems entry.verses entry.totalDays (entry.lastIndex + 1)
                (min numReq maxDays)).map fun it =>
                  ("day_" ++ toString it.dayNum, it.ref ++ (": " ++ it.text)) },
       ainsert plans ctx
         { entry with
           lastIndex := entry.lastIndex + 1
             + ((chunkItems entry.verses entry.totalDays (entry.lastIndex + 1)
                 (min numReq maxDays)).length : Int) - 1,
           totalDays := entry.totalDays
             + (chunkItems entry.verses entry.totalDays (entry.lastIndex + 1)
                 (min numReq maxDays)).length }) := by
    unfold get_next_chunk
    rw [hlook]
    simp only [if_neg hnotex]
  refine ⟨{ contextId := ctx, state := "completed",
            messageText := nextText entry.topic
              ((chunkItems entry.verses entry.totalDays (entry.lastIndex + 1)
                (min numReq maxDays)).map chunkLine),
            artifacts := (chunkItems entry.verses entry.totalDays (entry.lastIndex + 1)
              (min numReq maxDays)).map fun it =>
                ("day_" ++ toString it.dayNum, it.ref ++ (": " ++ it.text)) },
    ?_, ?_, ?_, ?_, ?_⟩
  · rw [hstep]
  · simpa using hpos
  · rw [hstep]
    simp only [List.length_map]
    rw [alookup_ainsert_self]
    simp only [Option.some.injEq, Plan.mk.injEq, true_and, and_true]
    omega
  · simp only [List.length_map]
    omega
  · intro k hk
    simp only [List.length_map] at hk
    simp only [List.getElem?_map]
    rw [chunkItems_getElem entry.verses (min numReq maxDays) entry.totalDays
      (entry.lastIndex + 1) k h0 hk]
    rfl

/-- C4 amended witness: a fresh two-verse plan advanced by one day
yields a one-artifact window named `day_1` and cursor 0. -/
theorem c4_advance_monotone_amended_witness :
    (get_next_chunk [("c", entryFresh)] "c" 1).1.isSome = true := by
  obtain ⟨r, h1, -⟩ :=
    c4_advance_monotone_amended [("c", entryFresh)] "c" entryFresh 1 rfl
      (by decide) (by decide) (by decide)
  rw [h1]
  rfl

/-- C6 counterexample: `"7 prayer"` matches no higher-precedence rule
(no continuation match, no full create match, no bare keyword match) and
starts with the digit `7`, yet the parser returns the whole text as the
topic with the default 5 days - not `days = 7, topic = "prayer"` as the
claim requires: `main.py` has no leading-integer rule. -/
theorem c6_leading_integer_counterexample :
    searchNextList "7 prayer".data = none
    ∧ searchCreateList "7 prayer".data = none
    ∧ searchTopicList "7 prayer".data = none
    ∧ ("7 prayer".data.head?).map Char.isDigit = some true
    ∧ parseCreateCmd "7 prayer" = ("7 prayer", 5)
    ∧ parseCreateCmd "7 prayer" ≠ ("prayer", 7) := by
  refine ⟨rfl, rfl, rfl, rfl, rfl, by decide⟩

/-- C6 amended: when neither the full create pattern nor the bare
keyword pattern matches, the parser falls through to
`topic = text or "faith"`, `days = 5`; a leading integer is not parsed
as a day count. -/
theorem c6_fallback_amended :
    ∀ text : String,
      searchCreateList text.data = none →
      searchTopicList text.data = none →
      parseCreateCmd text = ((if text = "" then "faith" else text), 5) := by
  intro text h1 h2
  unfold parseCreateCmd
  rw [h1, h2]

/-- C6 amended witness. -/
theorem c6_fallback_amended_witness :
    parseCreateCmd "7 prayer" = ("7 prayer", 5) := by
  have h := c6_fallback_amended "7 prayer" rfl rfl
  simpa using h

/-- C9 (code bug record): an envelope that fails the manual
`jsonrpc`/`id` check answers `-32600`, as the claim states; but an
envelope declaring an unsupported method also answers `-32600`, because
the pydantic schema restricts `method` to the two supported literals and
its `ValidationError` is answered before the dispatch is reached - the
source's own `-32601` "Method not found" branch (main.py lines 102-113)
is unreachable: no envelope at all is answered with `-32601`. -/
theorem c9_unknown_method_gets_32600 :
    validateEnvelope { jsonrpc := some "2.0", idPresent := true, idIsStr := true,
                       methodVal := some "tasks/get", params := ParamsShape.messageParams }
        = some (-32600)
    ∧ validateEnvelope { jsonrpc := none, idPresent := true, idIsStr := true,
                         methodVal := some "message/send", params := ParamsShape.messageParams }
        = some (-32600)
    ∧ validateEnvelope { jsonrpc := some "2.0", idPresent := false, idIsStr := false,
                         methodVal := some "message/send", params := ParamsShape.messageParams }
        = some (-32600)
    ∧ ∀ b : Envelope, (validateEnvelope b == some (-32601)) = false := by
  refine ⟨by decide, by decide, by decide, ?_⟩
  intro b
  unfold validateEnvelope
  split_ifs with h1 h2 h3 h4
  · rfl
  · rfl
  · rfl
  · rfl
  · exfalso
    have hp : pydanticOk b = true := by simpa using h2
    unfold pydanticOk at hp
    simp only [Bool.and_eq_true, Bool.or_eq_true, decide_eq_true_eq] at hp
    rcases hp.1.2 with hm | hm
    · exact h3 hm
    · exact h4 hm

/-- C1 counterexample: in the empty state, the continuation request
`"next 3 days"` under the unknown conversation id `"c1"` is NOT answered
with the "no plan found" result - the dispatcher's guard
`context_id in user_contexts` fails and the request falls through to
plan creation, storing a plan under `"c1"` (topic `"next 3 days"`): a
Plan is created implicitly and the Plan Store changes. -/
theorem c1_unknown_context_counterexample :
    searchNextList "next 3 days".data = some 3
    ∧ alookup ([] : List (String × Plan)) "c1" = none
    ∧ isNoPlanFound (routeRequest ⟨[], []⟩ "c1" "next 3 days" "f0" []).1 = false
    ∧ isCreated (routeRequest ⟨[], []⟩ "c1" "next 3 days" "f0" []).1 = true
    ∧ (alookup (routeRequest ⟨[], []⟩ "c1" "next 3 days" "f0" []).2.plans "c1").isSome
        = true := by
  refine ⟨rfl, rfl, rfl, rfl, rfl⟩

/-- C1 amended: the completed-state "no plan found" result is produced,
with the plan store unchanged, exactly when the continuation pattern
matches AND the conversation id is tracked in the dispatcher's
`user_contexts` map but the agent holds no plan for it; when the id is
not tracked, the same continuation request falls through to the create
path and a plan is stored under it. -/
theorem c1_no_plan_found_amended :
    (∀ (st : DState) (ctx text freshId : String) (n : Nat) (fetched : List PyVal),
        searchNextList text.data = some n →
        ctx ∈ st.userContexts →
        alookup st.plans ctx = none →
        routeRequest st ctx text freshId fetched = (RouteOut.noPlanFound, st))
    ∧ (∀ (st : DState) (ctx text freshId : String) (n : Nat) (fetched : List PyVal),
        searchNextList text.data = some n →
        ctx ∉ st.userContexts →
        ctx ≠ "" →
        isCreated (routeRequest st ctx text freshId fetched).1 = true
        ∧ (alookup (routeRequest st ctx text freshId fetched).2.plans ctx).isSome
            = true) := by
  constructor
  · intro st ctx text freshId n fetched hs hmem hlook
    simp only [routeRequest, hs, if_pos hmem, get_next_chunk, hlook]
  · intro st ctx text freshId n fetched hs hmem hne
    simp only [routeRequest, hs, if_neg hmem, create_plan, planStoreCreate, if_neg hne]
    constructor
    · rfl
    · rw [alookup_ainsert_self]
      rfl

/-- C1 amended witness: a tracked id with no stored plan gets the
"no plan found" answer and an unchanged state. -/
theorem c1_no_plan_found_amended_witness :
    routeRequest ⟨["cx"], []⟩ "cx" "next 2 days" "f0" []
      = (RouteOut.noPlanFound, ⟨["cx"], []⟩) :=
  c1_no_plan_found_amended.1 ⟨["cx"], []⟩ "cx" "next 2 days" "f0" 2 [] rfl
    (by decide) rfl

theorem collectText_eq (ps : List PartM) :
    ∀ acc : String, collectText ps acc = acc ++ concatSp (textPieces ps) := by
  induction ps with
  | nil => intro acc; simp [collectText, textPieces, concatSp, String.append_empty]
  | cons p ps ih =>
    intro acc
    cases hp : p.text with
    | none => simp [collectText, textPieces, hp, ih]
    | some s =>
      by_cases hc : p.kind = "text" && !s.isEmpty
      · simp only [collectText, textPieces, hp, hc, if_true, List.filterMap_cons, ih,
          concatSp]
        rw [String.append_assoc]
      · have hc' : ¬(p.kind = "text" ∧ s.isEmpty = false) := by
          simpa [Bool.and_eq_true, decide_eq_true_eq, Bool.not_eq_true'] using hc
        simp [collectText, textPieces, hp, hc, hc', ih]

theorem concatSp_eq_joinSpace (x : String) (t : List String) :
    concatSp (x :: t) = joinSpace (x :: t) ++ " " := by
  induction t generalizing x with
  | nil => simp [concatSp, joinSpace, String.append_empty]
  | cons y t ih =>
    show (x ++ " ") ++ concatSp (y :: t) = (x ++ " " ++ joinSpace (y :: t)) ++ " "
    rw [ih y, ← String.append_assoc]

theorem pyStripS_append_space (s : String) : pyStripS (s ++ " ") = pyStripS s := by
  unfold pyStripS pyStripList
  congr 1
  rw [String.data_append]
  have hd : (" " : String).data = [' '] := rfl
  have hsp : isPySpace ' ' = true := by decide
  rw [hd, List.reverse_append]
  simp [List.dropWhile_cons, hsp]

theorem strip_concatSp (xs : List String) :
    pyStripS (concatSp xs) = pyStripS (joinSpace xs) := by
  cases xs with
  | nil => rfl
  | cons x t => rw [concatSp_eq_joinSpace, pyStripS_append_space]

/-- C7 counterexample: a `message/send` message with two text parts
`"hello"` and `"world"` - the extraction concatenates ALL text parts of
the message, yielding `"hello world"`, not the first text-bearing
part's `"hello"` as the claim states. -/
theorem c7_first_part_counterexample :
    extractText [[{ kind := "text", text := some "hello" },
                  { kind := "text", text := some "world" }]] = "hello world"
    ∧ extractText [[{ kind := "text", text := some "hello" },
                    { kind := "text", text := some "world" }]] ≠ "hello" := by
  refine ⟨rfl, by decide⟩

/-- C7 amended: for every validated request the dispatcher extracts the
user text by joining the stripped texts of ALL text-bearing parts of the
LAST message with single spaces (then stripping), and substitutes
`"faith"` when no text is found - the code-side loop equals this
spec-side rendering on every input. -/
theorem c7_extract_all_parts_amended :
    ∀ messages : List (List PartM), extractText messages = extractTextSpec messages := by
  intro messages
  unfold extractText extractTextSpec
  cases hl : messages.getLast? with
  | none => rfl
  | some parts =>
    have h1 : collectText parts "" = concatSp (textPieces parts) := by
      rw [collectText_eq]
      exact String.empty_append _
    simp only [hl]
    rw [h1, strip_concatSp]

end Bibly
